import Mathlib

/-!
Shallow embedding of the laughing-owl sigma.js example
(src/examples/laughing-owl/index.ts).

The graph model follows graphology's observable behaviour as used by the
example: a multigraph whose nodes carry a fixed attribute record and whose
edges carry a key, a source, a target and an attribute record.  Fresh edge
keys are modelled by a counter `nextKey`; graphology's auto-generated keys
are fresh with respect to all existing edges, which the well-formedness
predicate `wfG` records.  Fallible graphology operations (adding an edge
whose endpoint is missing or `undefined`, dropping a missing edge, reading
attributes of a missing node) are modelled with `Option`; a JavaScript
exception thrown in the middle of a handler leaves the mutations performed
so far in place, which the handler embeddings reproduce by returning the
partially mutated state together with an error value.

Incident-edge iteration (`graph.findEdge(node, cb)`, which the example
uses purely for its iteration side effects since the callback returns
`undefined`) is modelled as traversal of the graph's edge list, in
insertion order, restricted to edges incident to the node.
-/

namespace LaughingOwl

/-- Node attribute record: the attributes the example reads or writes. -/
structure NodeAttrs where
  label : String
  color : String
  hidden : Bool
  isExtraData : Bool
  isMalop : Bool
  deriving Repr, DecidableEq

instance : Inhabited NodeAttrs := ⟨⟨"", "", false, false, false⟩⟩

/-- Edge attribute record: the attributes the example reads or writes.
`attr == false` marks a structural/synthetic edge. -/
structure EdgeAttrs where
  label : String
  attr : Bool
  color : String
  deriving Repr, DecidableEq

/-- A node entry of the graph: key plus attributes. -/
structure NodeRec where
  key : String
  attrs : NodeAttrs
  deriving Repr, DecidableEq

/-- An edge entry of the graph: key, endpoints and attributes. -/
structure EdgeRec where
  key : Nat
  source : String
  target : String
  attrs : EdgeAttrs
  deriving Repr, DecidableEq

/-- The multigraph state (`new Graph({multi: true})`). -/
structure G where
  nodes : List NodeRec
  edges : List EdgeRec
  nextKey : Nat
  deriving Repr, DecidableEq

/-- `graph.hasNode`. -/
def hasNode (g : G) (k : String) : Bool :=
  g.nodes.any fun n => n.key == k

/-- `graph.getNodeAttributes`; graphology throws when the node is missing,
modelled by `none`. -/
def getNodeAttributes (g : G) (k : String) : Option NodeAttrs :=
  (g.nodes.find? fun n => n.key == k).map (·.attrs)

/-- `graph.addNode`; graphology throws when the node already exists. -/
def addNode (g : G) (k : String) (a : NodeAttrs) : Option G :=
  if hasNode g k then none
  else some { g with nodes := g.nodes ++ [⟨k, a⟩] }

/-- `graph.addEdge(source, target, attributes)` with auto-generated key.
Either endpoint may be `undefined` (`none`), in which case graphology
throws, as it does when an endpoint is not a node of the graph. -/
def addEdge (g : G) (s t : Option String) (a : EdgeAttrs) : Option (Nat × G) :=
  match s, t with
  | some s, some t =>
    if hasNode g s && hasNode g t then
      some (g.nextKey,
        { g with edges := g.edges ++ [⟨g.nextKey, s, t, a⟩],
                 nextKey := g.nextKey + 1 })
    else none
  | _, _ => none

/-- `graph.dropEdge(key)`; graphology throws when the edge is missing. -/
def dropEdge (g : G) (k : Nat) : Option G :=
  if g.edges.any (fun e => e.key == k) then
    some { g with edges := g.edges.filter fun e => e.key != k }
  else none

/-- Whether an edge touches the node `n`. -/
def incidentTo (n : String) (e : EdgeRec) : Bool :=
  e.source == n || e.target == n

/-- `graph.dropNode(key)`: drops the node and every incident edge;
graphology throws when the node is missing. -/
def dropNode (g : G) (k : String) : Option G :=
  if hasNode g k then
    some { g with nodes := g.nodes.filter fun n => n.key != k,
                  edges := g.edges.filter fun e => !incidentTo k e }
  else none

/-- The edges incident to `n`, in edge-list order. -/
def incidentEdges (g : G) (n : String) : List EdgeRec :=
  g.edges.filter (incidentTo n)

/-- Well-formedness of the graphology state as maintained by the library:
every edge key is below the fresh-key counter, node keys are unique, and
every edge endpoint is a node of the graph. -/
def wfG (g : G) : Prop :=
  (∀ e ∈ g.edges, e.key < g.nextKey) ∧
  (g.nodes.map (·.key)).Nodup ∧
  (∀ e ∈ g.edges, hasNode g e.source = true ∧ hasNode g e.target = true)

instance (g : G) : Decidable (wfG g) := by
  unfold wfG; infer_instance

/-! ### Camera level-of-detail toggle (`display_values`) -/

/-- The camera-ratio threshold `.3` of `display_values`. -/
def ratioThreshold : ℚ := 3 / 10

/-- Effect of one `display_values` pass on one node's attributes. -/
def dispNodeAttrs (ratio : ℚ) (a : NodeAttrs) : NodeAttrs :=
  if ratio < ratioThreshold then
    if a.isExtraData && a.hidden then { a with hidden := false } else a
  else
    if a.isExtraData && !a.hidden then { a with hidden := true } else a

/-- Effect of one `display_values` pass on one edge's attributes. -/
def dispEdgeAttrs (ratio : ℚ) (a : EdgeAttrs) : EdgeAttrs :=
  if ratio < ratioThreshold then
    if a.attr == false then { a with color := "#FFFFFF" } else a
  else
    if a.attr == false then { a with color := "#000000" } else a

/-- `display_values()` at camera ratio `ratio`. -/
def display_values (ratio : ℚ) (g : G) : G :=
  { g with nodes := g.nodes.map fun n => { n with attrs := dispNodeAttrs ratio n.attrs },
           edges := g.edges.map fun e => { e with attrs := dispEdgeAttrs ratio e.attrs } }

/-- Whether the node branch of `display_values` performs a
`setNodeAttribute` write for a node with these attributes (the write is
guarded by comparing the current value). -/
def nodeWriteFires (ratio : ℚ) (a : NodeAttrs) : Bool :=
  if ratio < ratioThreshold then a.isExtraData && a.hidden
  else a.isExtraData && !a.hidden

/-- Whether the edge branch of `display_values` performs a
`setEdgeAttribute` write for an edge with these attributes (the write is
performed whenever `attr == false`, with no comparison of the current
color). -/
def edgeWriteFires (a : EdgeAttrs) : Bool :=
  a.attr == false

/-- Number of attribute writes one invocation of `display_values`
performs on graph `g` at ratio `ratio`. -/
def display_writes (ratio : ℚ) (g : G) : Nat :=
  (g.nodes.filter fun n => nodeWriteFires ratio n.attrs).length +
  (g.edges.filter fun e => edgeWriteFires e.attrs).length

/-! ### Interaction state and reducers -/

/-- The `State` record of the example (the fields the reducers read).
`hoveredNodeIsMalop` is read for truthiness, hence modelled as `Bool`. -/
structure InterState where
  hoveredNode : Option String
  hoveredNodeIsMalop : Bool
  selectedNode : Option String
  suggestions : Option (List String)
  hoveredNeighbors : Option (List String)
  deriving Repr, DecidableEq

/-- Display attributes of a node as seen by the node reducer. -/
structure NodeDisplay where
  label : String
  color : String
  hidden : Bool
  highlighted : Bool
  deriving Repr, DecidableEq

/-- Display attributes of an edge as seen by the edge reducer. -/
structure EdgeDisplay where
  color : String
  hidden : Bool
  deriving Repr, DecidableEq

/-- The grey constant used by the node reducer. -/
def greyColor : String := "#f6f6f6"

/-- The `nodeReducer` setting. -/
def nodeReducer (st : InterState) (node : String) (data : NodeDisplay) : NodeDisplay :=
  if st.hoveredNodeIsMalop then data
  else
    let r1 :=
      match st.hoveredNeighbors with
      | some nb =>
        if !nb.contains node && st.hoveredNode != some node then
          { data with label := "", color := greyColor }
        else data
      | none => data
    if st.selectedNode == some node then { r1 with highlighted := true }
    else
      match st.suggestions with
      | some sg =>
        if !sg.contains node then { r1 with label := "", color := greyColor }
        else r1
      | none => r1

/-- The `edgeReducer` setting, applied to an edge with source `esrc` and
target `etgt` (the reducer reads them through `graph.source` and
`graph.hasExtremity`). -/
def edgeReducer (st : InterState) (esrc etgt : String) (data : EdgeDisplay) : EdgeDisplay :=
  if st.hoveredNodeIsMalop then data
  else
    let hasNeighbor :=
      match st.hoveredNeighbors with
      | some nb => nb.contains esrc
      | none => false
    let r1 :=
      match st.hoveredNode with
      | some h =>
        if !(h == esrc || h == etgt) && !hasNeighbor then
          { data with hidden := true }
        else data
      | none => data
    match st.suggestions with
    | some sg =>
      if !sg.contains esrc || !sg.contains etgt then { r1 with hidden := true }
      else r1
    | none => r1

/-- The hiding condition of the claimed edge rule, following the spec's
words: hidden when (a) a hover is active and the edge touches neither the
hovered node nor a node adjacent to it via the hover's neighbor set
(either endpoint), or (b) a suggestion set is active and an endpoint is
absent from it.  Stated for comparison with `edgeReducer`. -/
def specEdgeHiddenCond (st : InterState) (esrc etgt : String) : Bool :=
  (st.hoveredNode.isSome &&
    !(st.hoveredNode == some esrc || st.hoveredNode == some etgt) &&
    !((st.hoveredNeighbors.getD []).contains esrc ||
      (st.hoveredNeighbors.getD []).contains etgt)) ||
  (match st.suggestions with
   | some sg => !sg.contains esrc || !sg.contains etgt
   | none => false)

/-- The hiding condition the code actually implements: for the hover part
only the edge's source endpoint is tested against the neighbor set. -/
def codeEdgeHiddenCond (st : InterState) (esrc etgt : String) : Bool :=
  (match st.hoveredNode with
   | some h =>
     !(h == esrc || h == etgt) &&
     !(match st.hoveredNeighbors with
       | some nb => nb.contains esrc
       | none => false)
   | none => false) ||
  (match st.suggestions with
   | some sg => !sg.contains esrc || !sg.contains etgt
   | none => false)

/-! ### Layout switch (`alignmentSelect` change handler) -/

/-- A serialized graph document (the JSON files fed to `graph.import`). -/
structure GraphDoc where
  nodes : List NodeRec
  edges : List EdgeRec
  deriving Repr, DecidableEq

/-- `graph.clear()`. -/
def clearGraph (g : G) : G :=
  { nodes := [], edges := [], nextKey := g.nextKey }

/-- `graph.import(doc)`: merges the document's records into the graph. -/
def importDoc (g : G) (d : GraphDoc) : G :=
  { nodes := g.nodes ++ d.nodes,
    edges := g.edges ++ d.edges,
    nextKey := max g.nextKey ((d.edges.map fun e => e.key + 1).foldr max 0) }

/-- The document selected by the `switch` on the dropdown value:
`"user"` imports `userData`, and `"machine"`, `"mitre"` and the default
case all import `machineData2`. -/
def selectDoc (machineData2 userData : GraphDoc) (choice : String) : GraphDoc :=
  if choice == "user" then userData else machineData2

/-- The `alignmentSelect` change handler: clear, then import the selected
document. -/
def alignmentChange (machineData2 userData : GraphDoc) (choice : String) (g : G) : G :=
  importDoc (clearGraph g) (selectDoc machineData2 userData choice)

/-! ### Context-menu remove / add-back machinery -/

/-- An entry of `contextState.revmovedEdges`. -/
structure RemovedEdge where
  source : String
  target : String
  attributes : EdgeAttrs
  deriving Repr, DecidableEq

/-- An entry of the local `newEdges` object built during removal: the
endpoints start as `undefined` (`none`) and are filled in while iterating
the incident edges. -/
structure Bridge where
  source : Option String
  target : Option String
  attributes : EdgeAttrs
  deriving Repr, DecidableEq

/-- The `ContextState` record.  The two list fields are `Option`s because
the add-back handler sets them to `undefined` rather than to empty
arrays. -/
structure ContextState where
  selectedNode : Option String
  removedNode : Option String
  removedNodeAttributes : Option NodeAttrs
  revmovedEdges : Option (List RemovedEdge)
  newEdges : Option (List Nat)
  deriving Repr, DecidableEq

/-- The initial `contextState` value `{ revmovedEdges: [], newEdges: [] }`. -/
def initialContextState : ContextState :=
  ⟨none, none, none, some [], some []⟩

/-- The whole mutable state the handlers touch. -/
structure AppState where
  graph : G
  ctx : ContextState
  deriving Repr, DecidableEq

/-- The JavaScript exceptions a handler can raise, by site: reading
attributes of a missing node, calling a method of `undefined`, a failing
`graph.addEdge`/`graph.addNode`/`graph.dropEdge`/`graph.dropNode`. -/
inductive JsError where
  | nodeNotFound
  | pushOnUndefined
  | lengthOfUndefined
  | addEdgeFailed
  | addNodeFailed
  | dropEdgeFailed
  | dropNodeFailed
  deriving Repr, DecidableEq

/-- `newEdges[label]['source'] = v` on the label-keyed bridge object. -/
def setBridgeSource (l : List (String × Bridge)) (lab : String) (v : String) :
    List (String × Bridge) :=
  l.map fun p => if p.1 == lab then (p.1, { p.2 with source := some v }) else p

/-- `newEdges[label]['target'] = v` on the label-keyed bridge object. -/
def setBridgeTarget (l : List (String × Bridge)) (lab : String) (v : String) :
    List (String × Bridge) :=
  l.map fun p => if p.1 == lab then (p.1, { p.2 with target := some v }) else p

/-- One step of the `findEdge` callback's effect on the local `newEdges`
object: create the label's entry when absent, then fill in its source or
target when the removed node is the edge's source or target. -/
def synthStep (n : String) (acc : List (String × Bridge)) (e : EdgeRec) :
    List (String × Bridge) :=
  let acc :=
    if e.attrs.attr == false && !(acc.any fun p => p.1 == e.attrs.label) then
      acc ++ [(e.attrs.label, ⟨none, none, e.attrs⟩)]
    else acc
  let acc :=
    if e.attrs.attr == false && e.source == n then
      setBridgeSource acc e.attrs.label e.target
    else acc
  if e.attrs.attr == false && e.target == n then
    setBridgeTarget acc e.attrs.label e.source
  else acc

/-- The `newEdges` object after iterating every edge incident to `n`, as a
label-keyed association list in insertion order. -/
def synthBridges (g : G) (n : String) : List (String × Bridge) :=
  (incidentEdges g n).foldl (synthStep n) []

/-- Lookup in the label-keyed bridge object. -/
def lookupBridge (l : List (String × Bridge)) (lab : String) : Option Bridge :=
  (l.find? fun p => p.1 == lab).map (·.2)

/-- The removed-edge record pushed for an incident edge. -/
def mkRemoved (e : EdgeRec) : RemovedEdge :=
  ⟨e.source, e.target, e.attrs⟩

/-- The bridge-adding loop of the remove handler: for each entry of the
`newEdges` object, `graph.addEdge` then `contextState.newEdges.push`.
A failing `addEdge` throws with the bridges added so far in place; a
`push` on an `undefined` list throws after the edge was already added. -/
def addBridges : AppState → List (String × Bridge) → AppState × Option JsError
  | s, [] => (s, none)
  | s, (_, b) :: rest =>
    match addEdge s.graph b.source b.target b.attributes with
    | none => (s, some .addEdgeFailed)
    | some (k, g') =>
      match s.ctx.newEdges with
      | none => ({ s with graph := g' }, some .pushOnUndefined)
      | some nl =>
        addBridges ⟨g', { s.ctx with newEdges := some (nl ++ [k]) }⟩ rest

/-- The `malopRemoveBtn` click handler. -/
def removeClick (s : AppState) : AppState × Option JsError :=
  match s.ctx.selectedNode with
  | none => (s, none)
  | some n =>
    let s := { s with ctx := { s.ctx with removedNode := some n } }
    match getNodeAttributes s.graph n with
    | none => (s, some .nodeNotFound)
    | some a =>
      let s := { s with ctx := { s.ctx with removedNodeAttributes := some a } }
      let inc := incidentEdges s.graph n
      match s.ctx.revmovedEdges with
      | none =>
        -- `contextState.revmovedEdges.push` throws at the first incident
        -- edge; with no incident edge the callback never runs.
        if inc.isEmpty then
          match dropNode s.graph n with
          | some g' => ({ s with graph := g' }, none)
          | none => (s, some .dropNodeFailed)
        else (s, some .pushOnUndefined)
      | some rl =>
        let s := { s with ctx :=
          { s.ctx with revmovedEdges := some (rl ++ inc.map mkRemoved) } }
        match addBridges s (synthBridges s.graph n) with
        | (s', some err) => (s', some err)
        | (s', none) =>
          match dropNode s'.graph n with
          | some g' => ({ s' with graph := g' }, none)
          | none => (s', some .dropNodeFailed)

/-- The edge-replay loop of the add-back handler. -/
def readdEdges : AppState → List RemovedEdge → AppState × Option JsError
  | s, [] => (s, none)
  | s, r :: rest =>
    match addEdge s.graph (some r.source) (some r.target) r.attributes with
    | none => (s, some .addEdgeFailed)
    | some (_, g') => readdEdges { s with graph := g' } rest

/-- The bridge-dropping loop of the add-back handler. -/
def dropEdges : G → List Nat → G × Option JsError
  | g, [] => (g, none)
  | g, k :: rest =>
    match dropEdge g k with
    | none => (g, some .dropEdgeFailed)
    | some g' => dropEdges g' rest

/-- The `malopAddBtn` click handler. -/
def addClick (s : AppState) : AppState × Option JsError :=
  match s.ctx.removedNode with
  | none => (s, none)
  | some n =>
    match addNode s.graph n ((s.ctx.removedNodeAttributes).getD default) with
    | none => (s, some .addNodeFailed)
    | some g0 =>
      let s := { s with graph := g0 }
      match s.ctx.revmovedEdges with
      | none => (s, some .lengthOfUndefined)
      | some rl =>
        match readdEdges s rl with
        | (s', some err) => (s', some err)
        | (s', none) =>
          match s'.ctx.newEdges with
          | none => (s', some .lengthOfUndefined)
          | some nl =>
            match dropEdges s'.graph nl with
            | (g', some err) => ({ s' with graph := g' }, some err)
            | (g', none) =>
              ({ graph := g',
                 ctx := { s'.ctx with
                   removedNode := none,
                   removedNodeAttributes := none,
                   revmovedEdges := none,
                   newEdges := none } }, none)

/-- The `rightClickNode` handler's effect on the context state. -/
def rightClickNode (s : AppState) (n : String) : AppState :=
  { s with ctx := { s.ctx with selectedNode := some n } }

/-- The claimed edit-buffer invariant: the buffer is either empty (no
pending removal) or fully populated (snapshot and both lists set). -/
def bufferInv (c : ContextState) : Bool :=
  c.removedNode == none ||
  (c.removedNodeAttributes.isSome && c.revmovedEdges.isSome && c.newEdges.isSome)

/-- A synthesized bridge is viable when both endpoints were filled in,
neither endpoint is the removed node, and both endpoints are nodes of the
graph. -/
def bridgeOK (g : G) (n : String) (b : Bridge) : Bool :=
  match b.source, b.target with
  | some a, some c => a != n && c != n && hasNode g a && hasNode g c
  | _, _ => false

/-- Every bridge synthesized for removing `n` from `g` is viable. -/
def bridgesOK (g : G) (n : String) : Bool :=
  (synthBridges g n).all fun p => bridgeOK g n p.2

/-! ### Observable graph equality -/

/-- The observable content of an edge, forgetting its auto-generated key. -/
def edgeTriple (e : EdgeRec) : String × String × EdgeAttrs :=
  (e.source, e.target, e.attrs)

/-- Observable equality of graph states: same nodes with the same
attributes, and the same edges (as a multiset of
source/target/attributes triples; graphology re-generates edge keys when
an edge is re-added). -/
def graphEquiv (g1 g2 : G) : Prop :=
  (g1.nodes : Multiset NodeRec) = (g2.nodes : Multiset NodeRec) ∧
  (g1.edges.map edgeTriple : Multiset (String × String × EdgeAttrs)) =
    (g2.edges.map edgeTriple : Multiset (String × String × EdgeAttrs))

instance (g1 g2 : G) : Decidable (graphEquiv g1 g2) := by
  unfold graphEquiv; infer_instance

/-! ### Helper lemmas about `display_values` -/

theorem dispNodeAttrs_idem (ratio : ℚ) (a : NodeAttrs) :
    dispNodeAttrs ratio (dispNodeAttrs ratio a) = dispNodeAttrs ratio a := by
  by_cases hr : ratio < ratioThreshold <;>
    cases a <;>
    simp [dispNodeAttrs, hr] <;>
    rename_i hid extra _ <;>
    cases hid <;> cases extra <;> simp

theorem dispEdgeAttrs_idem (ratio : ℚ) (a : EdgeAttrs) :
    dispEdgeAttrs ratio (dispEdgeAttrs ratio a) = dispEdgeAttrs ratio a := by
  by_cases hr : ratio < ratioThreshold <;>
    cases a <;>
    simp [dispEdgeAttrs, hr] <;>
    rename_i att _ <;>
    cases att <;> simp

theorem nodeWriteFires_disp (ratio : ℚ) (a : NodeAttrs) :
    nodeWriteFires ratio (dispNodeAttrs ratio a) = false := by
  by_cases hr : ratio < ratioThreshold <;>
    cases a <;>
    simp [dispNodeAttrs, nodeWriteFires, hr] <;>
    rename_i hid extra _ <;>
    cases hid <;> cases extra <;> simp

theorem dispNodeAttrs_isExtraData (ratio : ℚ) (a : NodeAttrs) :
    (dispNodeAttrs ratio a).isExtraData = a.isExtraData := by
  by_cases hr : ratio < ratioThreshold <;>
    cases a <;>
    simp [dispNodeAttrs, hr] <;>
    rename_i hid extra _ <;>
    cases hid <;> cases extra <;> simp

theorem dispEdgeAttrs_attr (ratio : ℚ) (a : EdgeAttrs) :
    (dispEdgeAttrs ratio a).attr = a.attr := by
  by_cases hr : ratio < ratioThreshold <;>
    cases a <;>
    simp [dispEdgeAttrs, hr] <;>
    rename_i att _ <;>
    cases att <;> simp

theorem dispNodeAttrs_hidden (ratio : ℚ) (a : NodeAttrs) (h : a.isExtraData = true) :
    ((dispNodeAttrs ratio a).hidden = false ↔ ratio < ratioThreshold) := by
  unfold dispNodeAttrs
  by_cases hr : ratio < ratioThreshold <;>
    cases hh : a.hidden <;>
    simp [h, hh, hr]

theorem dispEdgeAttrs_color (ratio : ℚ) (a : EdgeAttrs) (h : a.attr = false) :
    (dispEdgeAttrs ratio a).color =
      if ratio < ratioThreshold then "#FFFFFF" else "#000000" := by
  unfold dispEdgeAttrs
  by_cases hr : ratio < ratioThreshold <;> simp [h, hr]

/-! ### C5: camera level-of-detail threshold -/

/-- C5.  The level-of-detail threshold is a strict boundary at 0.3: after
`display_values`, every node flagged `isExtraData` has `hidden = false`
exactly when the camera ratio is strictly below 3/10, and every edge
flagged `attr == false` has color `"#FFFFFF"` strictly below 3/10 and
`"#000000"` at or above it. -/
theorem c5_ratio_threshold (ratio : ℚ) (g : G) :
    (∀ n ∈ (display_values ratio g).nodes, n.attrs.isExtraData = true →
      (n.attrs.hidden = false ↔ ratio < ratioThreshold)) ∧
    (∀ e ∈ (display_values ratio g).edges, e.attrs.attr = false →
      e.attrs.color = if ratio < ratioThreshold then "#FFFFFF" else "#000000") := by
  constructor
  · intro n hn hx
    simp only [display_values, List.mem_map] at hn
    obtain ⟨m, _, rfl⟩ := hn
    have hx2 : m.attrs.isExtraData = true := by
      simpa [dispNodeAttrs_isExtraData] using hx
    exact dispNodeAttrs_hidden ratio m.attrs hx2
  · intro e he ha
    simp only [display_values, List.mem_map] at he
    obtain ⟨m, _, rfl⟩ := he
    have ha2 : m.attrs.attr = false := by
      simpa [dispEdgeAttrs_attr] using ha
    exact dispEdgeAttrs_color ratio m.attrs ha2

/-- Example graph for the C5 witness: one hidden extra-data node and one
structural edge. -/
def c5G : G :=
  { nodes := [⟨"E", ⟨"e", "blue", true, true, false⟩⟩],
    edges := [⟨0, "E", "E", ⟨"L", false, "black"⟩⟩],
    nextKey := 1 }

theorem c5_ratio_threshold_witness :
    ((⟨"E", ⟨"e", "blue", false, true, false⟩⟩ : NodeRec) ∈
        (display_values (2999/10000) c5G).nodes ∧
      ((⟨"E", ⟨"e", "blue", false, true, false⟩⟩ : NodeRec).attrs.hidden = false ↔
        (2999/10000 : ℚ) < ratioThreshold)) ∧
    ((⟨0, "E", "E", ⟨"L", false, "#000000"⟩⟩ : EdgeRec) ∈
        (display_values (3/10) c5G).edges ∧
      (⟨0, "E", "E", ⟨"L", false, "#000000"⟩⟩ : EdgeRec).attrs.color =
        if (3/10 : ℚ) < ratioThreshold then "#FFFFFF" else "#000000") := by
  have hlt : (2999/10000 : ℚ) < ratioThreshold := by norm_num [ratioThreshold]
  have hge : ¬ ((3/10 : ℚ) < ratioThreshold) := by norm_num [ratioThreshold]
  have hm1 : (⟨"E", ⟨"e", "blue", false, true, false⟩⟩ : NodeRec) ∈
      (display_values (2999/10000) c5G).nodes := by
    simp [display_values, c5G, dispNodeAttrs, hlt]
  have hm2 : (⟨0, "E", "E", ⟨"L", false, "#000000"⟩⟩ : EdgeRec) ∈
      (display_values (3/10) c5G).edges := by
    simp [display_values, c5G, dispEdgeAttrs, hge]
  exact ⟨⟨hm1, (c5_ratio_threshold (2999/10000) c5G).1 _ hm1 rfl⟩,
    ⟨hm2, (c5_ratio_threshold (3/10) c5G).2 _ hm2 rfl⟩⟩

/-! ### C6: idempotence of the level-of-detail toggle -/

/-- Example graph for the C6 counterexample: a single structural edge. -/
def c6G : G :=
  { nodes := [],
    edges := [⟨0, "a", "b", ⟨"L", false, "black"⟩⟩],
    nextKey := 1 }

/-- C6 counterexample.  A second invocation of `display_values` at the
same ratio still performs an attribute write: the edge-color write is not
guarded by comparing the current value, so on `c6G` the second invocation
performs one write rather than zero. -/
theorem c6_second_invocation_writes :
    display_writes (1/2) (display_values (1/2) c6G) ≠ 0 := by
  norm_num [display_writes, display_values, dispEdgeAttrs, edgeWriteFires, c6G,
    ratioThreshold]

/-- C6 (amended).  The toggle is idempotent as a state transformation: a
second invocation at the same ratio leaves the graph unchanged, and the
node writes (which are guarded by comparing the desired against the
current value) do not fire again; the edge-color writes, however, are
re-performed with identical values. -/
theorem c6_toggle_idempotent (ratio : ℚ) (g : G) :
    display_values ratio (display_values ratio g) = display_values ratio g ∧
    ((display_values ratio g).nodes.filter
      fun n => nodeWriteFires ratio n.attrs).length = 0 := by
  constructor
  · simp only [display_values, List.map_map]
    refine congrArg₂ (fun ns es => G.mk ns es g.nextKey) ?_ ?_
    · exact List.map_congr_left fun n _ => by
        simp [Function.comp, dispNodeAttrs_idem]
    · exact List.map_congr_left fun e _ => by
        simp [Function.comp, dispEdgeAttrs_idem]
  · rw [List.length_eq_zero, List.filter_eq_nil_iff]
    intro n hn
    simp only [display_values, List.mem_map] at hn
    obtain ⟨m, _, rfl⟩ := hn
    simp [nodeWriteFires_disp]

/-! ### C3: node greying rule -/

/-- C3.  When a hover is active (a neighbor set exists), the hovered node
is not flagged malop, and the node is neither the hovered node nor in its
neighbor set, the node reducer blanks the label and greys the color. -/
theorem c3_node_greying (st : InterState) (nb : List String) (node : String)
    (data : NodeDisplay)
    (hnb : st.hoveredNeighbors = some nb) (hm : st.hoveredNodeIsMalop = false)
    (hne : st.hoveredNode ≠ some node) (hmem : node ∉ nb) :
    (nodeReducer st node data).label = "" ∧
    (nodeReducer st node data).color = greyColor := by
  unfold nodeReducer
  rw [hm, hnb]
  simp only [Bool.false_eq_true, if_false]
  have hc : (!nb.contains node && st.hoveredNode != some node) = true := by
    simp [hmem, hne]
  rw [hc]
  simp only [if_true]
  rcases hsel : st.selectedNode == some node with _ | _ <;>
    rcases hsg : st.suggestions with _ | sg <;>
    simp [hsel, hsg] <;>
    (try split) <;> simp

theorem c3_node_greying_witness :
    ((⟨some "h", false, none, none, some ["x"]⟩ : InterState).hoveredNeighbors =
        some ["x"] ∧
      (⟨some "h", false, none, none, some ["x"]⟩ : InterState).hoveredNodeIsMalop =
        false ∧
      (⟨some "h", false, none, none, some ["x"]⟩ : InterState).hoveredNode ≠
        some "n" ∧
      "n" ∉ ["x"]) ∧
    (nodeReducer ⟨some "h", false, none, none, some ["x"]⟩ "n"
        ⟨"lbl", "red", false, false⟩).label = "" ∧
    (nodeReducer ⟨some "h", false, none, none, some ["x"]⟩ "n"
        ⟨"lbl", "red", false, false⟩).color = greyColor :=
  ⟨⟨rfl, rfl, by decide, by decide⟩,
    c3_node_greying ⟨some "h", false, none, none, some ["x"]⟩ ["x"] "n"
      ⟨"lbl", "red", false, false⟩ rfl rfl (by decide) (by decide)⟩

/-! ### C4: edge hiding rule -/

/-- C4 counterexample.  With hovered node `"h"`, neighbor set `{"v"}` and
no suggestion set, the edge `("u","v")` touches the neighbor `"v"`, so by
the claimed rule it must not be hidden; the code tests only the source
endpoint `"u"` against the neighbor set and hides it. -/
theorem c4_edge_hiding_counterexample :
    (edgeReducer ⟨some "h", false, none, none, some ["v"]⟩ "u" "v"
        ⟨"red", false⟩).hidden = true ∧
    specEdgeHiddenCond ⟨some "h", false, none, none, some ["v"]⟩ "u" "v" = false := by
  decide

/-- C4 (amended).  When the hovered node is not flagged malop, the edge
reducer's hidden flag equals the base hidden flag or-ed with the
implemented condition: (a) a hover is active, neither endpoint is the
hovered node, and the edge's source endpoint is not in the hover's
neighbor set, or (b) a suggestion set is active and at least one endpoint
is absent from it. -/
theorem c4_edge_hiding (st : InterState) (esrc etgt : String) (data : EdgeDisplay)
    (hm : st.hoveredNodeIsMalop = false) :
    (edgeReducer st esrc etgt data).hidden =
      (codeEdgeHiddenCond st esrc etgt || data.hidden) := by
  unfold edgeReducer codeEdgeHiddenCond
  rw [hm]
  simp only [Bool.false_eq_true, if_false]
  rcases hhov : st.hoveredNode with _ | h <;>
    rcases hnb : st.hoveredNeighbors with _ | nb <;>
    rcases hsg : st.suggestions with _ | sg <;>
    simp only [hhov, hnb, hsg] <;>
    (try split) <;>
    simp_all <;>
    (try split) <;>
    simp_all [Bool.or_comm]

theorem c4_edge_hiding_witness :
    (⟨some "h", false, none, some ["u"], some ["v"]⟩ : InterState).hoveredNodeIsMalop =
      false ∧
    (edgeReducer ⟨some "h", false, none, some ["u"], some ["v"]⟩ "u" "v"
        ⟨"red", false⟩).hidden =
      (codeEdgeHiddenCond ⟨some "h", false, none, some ["u"], some ["v"]⟩ "u" "v" ||
        (⟨"red", false⟩ : EdgeDisplay).hidden) :=
  ⟨rfl, c4_edge_hiding ⟨some "h", false, none, some ["u"], some ["v"]⟩ "u" "v"
    ⟨"red", false⟩ rfl⟩

/-! ### C7: malop suppression -/

/-- C7.  When the hovered node is flagged malop, both reducers return the
base display attributes unchanged. -/
theorem c7_malop_suppression (st : InterState) (node esrc etgt : String)
    (nd : NodeDisplay) (ed : EdgeDisplay)
    (hm : st.hoveredNodeIsMalop = true) :
    nodeReducer st node nd = nd ∧ edgeReducer st esrc etgt ed = ed := by
  unfold nodeReducer edgeReducer
  rw [hm]
  simp

theorem c7_malop_suppression_witness :
    (⟨some "h", true, some "n", some [], some []⟩ : InterState).hoveredNodeIsMalop =
      true ∧
    nodeReducer ⟨some "h", true, some "n", some [], some []⟩ "n"
        ⟨"lbl", "red", false, false⟩ = ⟨"lbl", "red", false, false⟩ ∧
    edgeReducer ⟨some "h", true, some "n", some [], some []⟩ "a" "b"
        ⟨"red", false⟩ = ⟨"red", false⟩ :=
  ⟨rfl,
    (c7_malop_suppression ⟨some "h", true, some "n", some [], some []⟩
      "n" "a" "b" ⟨"lbl", "red", false, false⟩ ⟨"red", false⟩ rfl).1,
    (c7_malop_suppression ⟨some "h", true, some "n", some [], some []⟩
      "n" "a" "b" ⟨"lbl", "red", false, false⟩ ⟨"red", false⟩ rfl).2⟩

/-! ### C9: layout switch atomicity -/

/-- C9.  Whatever the prior graph state, the change handler of the layout
selector produces exactly the selected document's nodes and edges: the
prior state is fully cleared before the import, so nothing residual
remains. -/
theorem c9_layout_switch_clears (machineData2 userData : GraphDoc)
    (choice : String) (g : G) :
    (alignmentChange machineData2 userData choice g).nodes =
      (selectDoc machineData2 userData choice).nodes ∧
    (alignmentChange machineData2 userData choice g).edges =
      (selectDoc machineData2 userData choice).edges := by
  simp [alignmentChange, importDoc, clearGraph]

/-! ### C10: add-back is a guarded no-op -/

/-- C10.  When no removal is pending (`removedNode` is unset), the
add-back click handler leaves the graph and the context state completely
unchanged and raises no error. -/
theorem c10_addback_noop (s : AppState) (h : s.ctx.removedNode = none) :
    addClick s = (s, none) := by
  unfold addClick
  rw [h]

theorem c10_addback_noop_witness :
    (AppState.mk ⟨[⟨"a", default⟩], [], 0⟩ initialContextState).ctx.removedNode =
      none ∧
    addClick (AppState.mk ⟨[⟨"a", default⟩], [], 0⟩ initialContextState) =
      (AppState.mk ⟨[⟨"a", default⟩], [], 0⟩ initialContextState, none) :=
  ⟨rfl, c10_addback_noop (AppState.mk ⟨[⟨"a", default⟩], [], 0⟩ initialContextState) rfl⟩

/-! ### Helper lemmas for the remove / add-back analysis -/

/-- A bridge that `graph.addEdge` accepts: both endpoints defined and
present in the graph. -/
def bridgeAddable (g : G) (b : Bridge) : Bool :=
  match b.source, b.target with
  | some a, some c => hasNode g a && hasNode g c
  | _, _ => false

/-- The edge records `addBridges` appends, with keys starting at `k`. -/
def bridgeEdgeList (k : Nat) : List (String × Bridge) → List EdgeRec
  | [] => []
  | (_, b) :: rest =>
    ⟨k, b.source.getD "", b.target.getD "", b.attributes⟩ :: bridgeEdgeList (k + 1) rest

/-- The keys `k, k+1, ..., k+m-1`. -/
def keyRange (k : Nat) : Nat → List Nat
  | 0 => []
  | m + 1 => k :: keyRange (k + 1) m

/-- The edge records `readdEdges` appends, with keys starting at `k`. -/
def readdList (k : Nat) : List RemovedEdge → List EdgeRec
  | [] => []
  | r :: rest => ⟨k, r.source, r.target, r.attributes⟩ :: readdList (k + 1) rest

theorem bridgeOK_addable (g : G) (n : String) (b : Bridge)
    (h : bridgeOK g n b = true) : bridgeAddable g b = true := by
  unfold bridgeOK at h
  unfold bridgeAddable
  rcases hs : b.source with _ | a <;> rcases ht : b.target with _ | c <;> simp_all

theorem bridgeAddable_nodes (g1 g2 : G) (b : Bridge) (h : g1.nodes = g2.nodes) :
    bridgeAddable g1 b = bridgeAddable g2 b := by
  unfold bridgeAddable hasNode
  rw [h]

theorem bridgeEdgeList_key_bounds :
    ∀ (bl : List (String × Bridge)) (k : Nat), ∀ e ∈ bridgeEdgeList k bl,
      k ≤ e.key ∧ e.key < k + bl.length := by
  intro bl
  induction bl with
  | nil => intro k e he; simp [bridgeEdgeList] at he
  | cons p rest ih =>
    intro k e he
    rcases p with ⟨lab, b⟩
    simp only [bridgeEdgeList, List.mem_cons] at he
    rcases he with rfl | he
    · refine ⟨Nat.le_refl _, ?_⟩
      simp only [List.length_cons]
      omega
    · have := ih (k + 1) e he
      refine ⟨by omega, ?_⟩
      simp only [List.length_cons]
      omega

theorem bridgeEdgeList_not_incident (g : G) (n : String) :
    ∀ (bl : List (String × Bridge)) (k : Nat),
      (∀ p ∈ bl, bridgeOK g n p.2 = true) →
      ∀ e ∈ bridgeEdgeList k bl, incidentTo n e = false := by
  intro bl
  induction bl with
  | nil => intro k _ e he; simp [bridgeEdgeList] at he
  | cons p rest ih =>
    intro k hok e he
    rcases p with ⟨lab, b⟩
    simp only [bridgeEdgeList, List.mem_cons] at he
    rcases he with rfl | he
    · have hb := hok (lab, b) (by simp)
      unfold bridgeOK at hb
      rcases hsrc : b.source with _ | a <;> rcases htgt : b.target with _ | c <;>
        rw [hsrc, htgt] at hb <;> simp_all [incidentTo] <;>
        simp [bne_iff_ne] at hb <;>
        exact ⟨hb.1, hb.2.1⟩
    · exact ih (k + 1) (fun q hq => hok q (by simp [hq])) e he

theorem readdList_key_lb :
    ∀ (rl : List RemovedEdge) (k : Nat), ∀ e ∈ readdList k rl, k ≤ e.key := by
  intro rl
  induction rl with
  | nil => intro k e he; simp [readdList] at he
  | cons r rest ih =>
    intro k e he
    simp only [readdList, List.mem_cons] at he
    rcases he with rfl | he
    · simp
    · have := ih (k + 1) e he; omega

theorem readdList_triples (l : List EdgeRec) :
    ∀ (k : Nat), (readdList k (l.map mkRemoved)).map edgeTriple = l.map edgeTriple := by
  induction l with
  | nil => intro k; simp [readdList]
  | cons e rest ih =>
    intro k
    simp [readdList, mkRemoved, edgeTriple, ih (k + 1)]

/-- Characterization of the bridge-adding loop when every bridge is
addable: no error, the bridge records are appended with consecutive fresh
keys, and their keys are pushed onto the `newEdges` list. -/
theorem addBridges_ok :
    ∀ (bl : List (String × Bridge)) (s : AppState) (nl : List Nat),
      s.ctx.newEdges = some nl →
      (∀ p ∈ bl, bridgeAddable s.graph p.2 = true) →
      addBridges s bl =
        (⟨⟨s.graph.nodes, s.graph.edges ++ bridgeEdgeList s.graph.nextKey bl,
            s.graph.nextKey + bl.length⟩,
          { s.ctx with newEdges := some (nl ++ keyRange s.graph.nextKey bl.length) }⟩,
          none) := by
  intro bl
  induction bl with
  | nil =>
    intro s nl hnl _
    rcases s with ⟨⟨ns, es, nk⟩, ⟨c1, c2, c3, c4, c5⟩⟩
    simp only [addBridges, bridgeEdgeList, keyRange, List.length_nil,
      List.append_nil, Nat.add_zero]
    simp_all
  | cons p rest ih =>
    intro s nl hnl hok
    rcases p with ⟨lab, b⟩
    have hb := hok (lab, b) (by simp)
    unfold bridgeAddable at hb
    rcases hsrc : b.source with _ | a
    · rw [hsrc] at hb; simp at hb
    rcases htgt : b.target with _ | c
    · rw [hsrc, htgt] at hb; simp at hb
    rw [hsrc, htgt] at hb
    simp only [Bool.and_eq_true] at hb
    simp only [addBridges, hsrc, htgt, addEdge, hb.1, hb.2, Bool.and_self,
      if_true, hnl]
    refine Eq.trans (ih _ (nl ++ [s.graph.nextKey]) rfl ?_) ?_
    · intro q hq
      refine Eq.trans (bridgeAddable_nodes _ s.graph q.2 rfl) ?_
      exact hok q (List.mem_cons_of_mem _ hq)
    · simp only [Prod.mk.injEq, AppState.mk.injEq, G.mk.injEq, bridgeEdgeList,
        keyRange, hsrc, htgt, Option.getD_some, List.length_cons,
        List.append_assoc, List.cons_append, List.singleton_append,
        List.nil_append]
      refine ⟨⟨⟨trivial, trivial, by omega⟩, trivial⟩, trivial⟩

/-- Characterization of the edge-replay loop when every recorded endpoint
is a node of the graph: no error and the records are appended with
consecutive fresh keys. -/
theorem readdEdges_ok :
    ∀ (rl : List RemovedEdge) (s : AppState),
      (∀ r ∈ rl, hasNode s.graph r.source = true ∧ hasNode s.graph r.target = true) →
      readdEdges s rl =
        (⟨⟨s.graph.nodes, s.graph.edges ++ readdList s.graph.nextKey rl,
            s.graph.nextKey + rl.length⟩, s.ctx⟩, none) := by
  intro rl
  induction rl with
  | nil =>
    intro s _
    rcases s with ⟨⟨ns, es, nk⟩, c⟩
    simp [readdEdges, readdList]
  | cons r rest ih =>
    intro s hok
    have hr := hok r (by simp)
    simp only [readdEdges, addEdge, hr.1, hr.2, Bool.and_self, if_true]
    refine Eq.trans (ih _ ?_) ?_
    · intro q hq
      have hq2 := hok q (List.mem_cons_of_mem _ hq)
      simpa [hasNode] using hq2
    · simp only [Prod.mk.injEq, AppState.mk.injEq, G.mk.injEq, readdList,
        List.length_cons, List.append_assoc, List.cons_append, List.nil_append,
        List.singleton_append]
      refine ⟨⟨⟨trivial, trivial, by omega⟩, trivial⟩, trivial⟩

/-- Dropping the key range of a freshly keyed middle segment removes
exactly that segment: the edges before it all have smaller keys and the
edges after it all have keys at or beyond the range. -/
theorem dropEdges_ok :
    ∀ (bl : List (String × Bridge)) (k : Nat) (ns : List NodeRec)
      (l1 l3 : List EdgeRec) (nk : Nat),
      (∀ e ∈ l1, e.key < k) →
      (∀ e ∈ l3, k + bl.length ≤ e.key) →
      dropEdges ⟨ns, l1 ++ bridgeEdgeList k bl ++ l3, nk⟩ (keyRange k bl.length) =
        (⟨ns, l1 ++ l3, nk⟩, none) := by
  intro bl
  induction bl with
  | nil =>
    intro k ns l1 l3 nk _ _
    simp [bridgeEdgeList, keyRange, dropEdges]
  | cons p rest ih =>
    intro k ns l1 l3 nk h1 h3
    rcases p with ⟨lab, b⟩
    have e0 : EdgeRec := ⟨k, b.source.getD "", b.target.getD "", b.attributes⟩
    simp only [bridgeEdgeList, keyRange, List.length_cons, dropEdges]
    have hmem : (l1 ++ (⟨k, b.source.getD "", b.target.getD "", b.attributes⟩ :
        EdgeRec) :: bridgeEdgeList (k + 1) rest ++ l3).any
        (fun e => e.key == k) = true := by
      simp only [List.any_eq_true]
      exact ⟨⟨k, b.source.getD "", b.target.getD "", b.attributes⟩,
        by simp, by simp⟩
    have hfil : (l1 ++ (⟨k, b.source.getD "", b.target.getD "", b.attributes⟩ :
        EdgeRec) :: bridgeEdgeList (k + 1) rest ++ l3).filter
        (fun e => e.key != k) =
        l1 ++ bridgeEdgeList (k + 1) rest ++ l3 := by
      simp only [List.filter_append, List.filter_cons]
      have hl1 : l1.filter (fun e => e.key != k) = l1 :=
        List.filter_eq_self.mpr fun e he => by
          simp [bne_iff_ne]
          exact Nat.ne_of_lt (h1 e he)
      have hl3 : l3.filter (fun e => e.key != k) = l3 :=
        List.filter_eq_self.mpr fun e he => by
          have hlen := h3 e he
          simp only [List.length_cons] at hlen
          simp [bne_iff_ne]
          omega
      have hb : (bridgeEdgeList (k + 1) rest).filter (fun e => e.key != k) =
          bridgeEdgeList (k + 1) rest :=
        List.filter_eq_self.mpr fun e he => by
          have := (bridgeEdgeList_key_bounds rest (k + 1) e he).1
          simp [bne_iff_ne]
          omega
      simp [hl1, hl3, hb]
    simp only [dropEdge, hmem, if_true, hfil]
    have ih2 := ih (k + 1) ns l1 l3 nk
      (fun e he => Nat.lt_succ_of_lt (h1 e he))
      (fun e he => by have := h3 e he; simp only [List.length_cons] at this ⊢; omega)
    exact ih2

/-- A successful attribute read implies node presence. -/
theorem getNodeAttributes_hasNode (g : G) (k : String) (a : NodeAttrs)
    (h : getNodeAttributes g k = some a) : hasNode g k = true := by
  unfold getNodeAttributes at h
  rcases hf : g.nodes.find? (fun n => n.key == k) with _ | nrec
  · rw [hf] at h; simp at h
  · have hmem := List.mem_of_find?_eq_some hf
    have hpred := List.find?_some hf
    simp only [hasNode, List.any_eq_true]
    exact ⟨nrec, hmem, hpred⟩

/-- The record a successful attribute read comes from is exactly the key
paired with the returned attributes. -/
theorem getNodeAttributes_rec (g : G) (k : String) (a : NodeAttrs)
    (h : getNodeAttributes g k = some a) :
    g.nodes.find? (fun n => n.key == k) = some ⟨k, a⟩ := by
  unfold getNodeAttributes at h
  rcases hf : g.nodes.find? (fun n => n.key == k) with _ | nrec
  · rw [hf] at h; simp at h
  · rw [hf] at h
    have hpred := List.find?_some hf
    rcases nrec with ⟨nk2, na2⟩
    have h2 : na2 = a := by simpa using h
    have h3 : nk2 = k := by simpa using hpred
    rw [hf, h3, h2]

/-- After filtering a key out, that key is no longer present. -/
theorem hasNode_filter_self (ns : List NodeRec) (es : List EdgeRec) (nk : Nat)
    (N : String) :
    hasNode ⟨ns.filter (fun n => n.key != N), es, nk⟩ N = false := by
  simp only [hasNode, List.any_eq_false]
  intro n hn
  simp only [List.mem_filter] at hn
  simpa [bne_iff_ne] using hn.2

/-- Node presence survives the remove / re-add of `N`. -/
theorem hasNode_addback (ns : List NodeRec) (es es' : List EdgeRec)
    (nk nk' : Nat) (N x : String) (aN : NodeAttrs)
    (hx : hasNode ⟨ns, es, nk⟩ x = true) :
    hasNode ⟨ns.filter (fun n => n.key != N) ++ [⟨N, aN⟩], es', nk'⟩ x = true := by
  simp only [hasNode, List.any_eq_true] at hx ⊢
  by_cases hxN : x = N
  · exact ⟨⟨N, aN⟩, by simp, by simp [hxN]⟩
  · obtain ⟨n, hmem, hkey⟩ := hx
    simp only [beq_iff_eq] at hkey
    refine ⟨n, ?_, by simp [hkey]⟩
    simp only [List.mem_append, List.mem_filter]
    exact Or.inl ⟨hmem, by simp [bne_iff_ne, hkey, hxN]⟩

/-- Removing the unique record with key `N` and appending it again is a
permutation of the original node list. -/
theorem filter_key_perm :
    ∀ (ns : List NodeRec) (N : String) (nrec : NodeRec),
      (ns.map (·.key)).Nodup →
      ns.find? (fun n => n.key == N) = some nrec →
      List.Perm (ns.filter (fun n => n.key != N) ++ [nrec]) ns := by
  intro ns
  induction ns with
  | nil => intro N nrec _ hf; simp at hf
  | cons hd tl ih =>
    intro N nrec hnd hf
    rcases hh : (hd.key == N) with _ | _
    · -- head key differs: head survives the filter, recurse
      rw [List.find?_cons_of_neg _ (by simp [hh])] at hf
      have hnd2 : (tl.map (·.key)).Nodup := by
        simp only [List.map_cons, List.nodup_cons] at hnd
        exact hnd.2
      have := ih N nrec hnd2 hf
      have hcond : ((hd.key != N) : Bool) = true := by
        simp [bne, hh]
      rw [List.filter_cons, hcond]
      simp only [if_true, List.cons_append]
      exact List.Perm.cons hd this
    · -- head key is N: find? returns the head, the tail has no key N
      rw [List.find?_cons_of_pos _ (by simp [hh])] at hf
      have hrec : nrec = hd := by
        simp only [Option.some.injEq] at hf
        exact hf.symm
      rw [hrec]
      have hkey : hd.key = N := by simpa using hh
      have htail : ∀ n ∈ tl, n.key ≠ N := by
        simp only [List.map_cons, List.nodup_cons] at hnd
        intro n hn hcontr
        exact hnd.1 (by
          rw [hkey, ← hcontr]
          exact List.mem_map_of_mem (·.key) hn)
      have hfil : tl.filter (fun n => n.key != N) = tl :=
        List.filter_eq_self.mpr fun n hn => by
          simp [bne_iff_ne]
          exact htail n hn
      have hcond : ((hd.key != N) : Bool) = false := by
        simp [bne, hh]
      rw [List.filter_cons, hcond]
      simp only [Bool.false_eq_true, if_false, hfil]
      exact List.perm_append_singleton hd tl

theorem bridgesOK_spec (g : G) (n : String) (h : bridgesOK g n = true) :
    ∀ p ∈ synthBridges g n, bridgeOK g n p.2 = true := by
  unfold bridgesOK at h
  rw [List.all_eq_true] at h
  exact h

/-- Characterization of a successful remove click: the selected node and
its incident edges are dropped, the synthesized bridges are appended with
fresh keys, and the context buffer is fully populated. -/
theorem removeClick_ok (s : AppState) (N : String) (aN : NodeAttrs)
    (hsel : s.ctx.selectedNode = some N)
    (hget : getNodeAttributes s.graph N = some aN)
    (hrl : s.ctx.revmovedEdges = some [])
    (hnl : s.ctx.newEdges = some [])
    (hok : bridgesOK s.graph N = true) :
    removeClick s =
      (⟨⟨s.graph.nodes.filter (fun n => n.key != N),
          s.graph.edges.filter (fun e => !incidentTo N e) ++
            bridgeEdgeList s.graph.nextKey (synthBridges s.graph N),
          s.graph.nextKey + (synthBridges s.graph N).length⟩,
        ⟨s.ctx.selectedNode, some N, some aN,
          some ((incidentEdges s.graph N).map mkRemoved),
          some (keyRange s.graph.nextKey (synthBridges s.graph N).length)⟩⟩,
        none) := by
  have hasN : hasNode s.graph N = true := getNodeAttributes_hasNode s.graph N aN hget
  have haddable : ∀ p ∈ synthBridges s.graph N, bridgeAddable s.graph p.2 = true :=
    fun p hp => bridgeOK_addable _ _ _ (bridgesOK_spec s.graph N hok p hp)
  unfold removeClick
  rw [hsel]
  simp only [hget, hrl, List.nil_append]
  rw [addBridges_ok (synthBridges s.graph N) _ [] (by exact hnl) (by exact haddable)]
  simp only []
  have hdrop : dropNode
      ⟨s.graph.nodes,
        s.graph.edges ++ bridgeEdgeList s.graph.nextKey (synthBridges s.graph N),
        s.graph.nextKey + (synthBridges s.graph N).length⟩ N =
      some ⟨s.graph.nodes.filter (fun n => n.key != N),
        (s.graph.edges ++
          bridgeEdgeList s.graph.nextKey (synthBridges s.graph N)).filter
          (fun e => !incidentTo N e),
        s.graph.nextKey + (synthBridges s.graph N).length⟩ := by
    unfold dropNode
    rw [show hasNode
        ⟨s.graph.nodes,
          s.graph.edges ++ bridgeEdgeList s.graph.nextKey (synthBridges s.graph N),
          s.graph.nextKey + (synthBridges s.graph N).length⟩ N = true from hasN]
    simp
  rw [hdrop]
  have hBfil : (s.graph.edges ++
      bridgeEdgeList s.graph.nextKey (synthBridges s.graph N)).filter
      (fun e => !incidentTo N e) =
      s.graph.edges.filter (fun e => !incidentTo N e) ++
        bridgeEdgeList s.graph.nextKey (synthBridges s.graph N) := by
    rw [List.filter_append]
    have hB : (bridgeEdgeList s.graph.nextKey (synthBridges s.graph N)).filter
        (fun e => !incidentTo N e) =
        bridgeEdgeList s.graph.nextKey (synthBridges s.graph N) :=
      List.filter_eq_self.mpr fun e he => by
        rw [bridgeEdgeList_not_incident s.graph N (synthBridges s.graph N)
          s.graph.nextKey (bridgesOK_spec s.graph N hok) e he]
        rfl
    rw [hB]
  rw [hBfil]
  simp [hsel]

/-! ### C1: remove / add-back round trip -/

/-- Example state for the C1 counterexample: node `M` has a bridgeable
structural pair under label `L1` but only a single structural edge under
label `L2`. -/
def c1Cex : AppState :=
  ⟨⟨[⟨"M", ⟨"n", "blue", false, false, false⟩⟩,
     ⟨"A", ⟨"n", "blue", false, false, false⟩⟩,
     ⟨"B", ⟨"n", "blue", false, false, false⟩⟩,
     ⟨"C", ⟨"n", "blue", false, false, false⟩⟩],
    [⟨0, "M", "A", ⟨"L1", false, "c"⟩⟩,
     ⟨1, "B", "M", ⟨"L1", false, "c"⟩⟩,
     ⟨2, "M", "C", ⟨"L2", false, "c"⟩⟩],
    3⟩,
   ⟨some "M", none, none, some [], some []⟩⟩

/-- C1 counterexample.  Removing `M` from `c1Cex` throws while adding the
`L2` bridge (its target is `undefined`), after the `L1` bridge was already
added and before the node was dropped; the subsequent add-back click also
throws, and the final graph differs from the initial one (it carries the
spurious `L1` bridge).  The claimed round trip fails for this node. -/
theorem c1_roundtrip_counterexample :
    ¬ graphEquiv (addClick (removeClick c1Cex).1).1.graph c1Cex.graph ∧
    (removeClick c1Cex).2 = some JsError.addEdgeFailed ∧
    (addClick (removeClick c1Cex).1).2 = some JsError.addNodeFailed := by
  decide

/-- C1 (amended).  For a well-formed state whose edit buffer is fresh
(empty lists), with node `N` selected and present, and whose synthesized
bridges are all viable (both endpoints defined, distinct from `N` and
present), the remove click succeeds, the add-back click succeeds, the
resulting graph is observably equal to the original (same nodes with the
same attributes, same edges up to the auto-generated keys of re-added
edges), and the pending-removal buffer is cleared. -/
theorem c1_remove_addback_roundtrip (s : AppState) (N : String) (aN : NodeAttrs)
    (hw : wfG s.graph)
    (hsel : s.ctx.selectedNode = some N)
    (hget : getNodeAttributes s.graph N = some aN)
    (hrl : s.ctx.revmovedEdges = some [])
    (hnl : s.ctx.newEdges = some [])
    (hok : bridgesOK s.graph N = true) :
    (removeClick s).2 = none ∧
    (addClick (removeClick s).1).2 = none ∧
    graphEquiv (addClick (removeClick s).1).1.graph s.graph ∧
    (addClick (removeClick s).1).1.ctx.removedNode = none := by
  obtain ⟨hwk, hwnd, hwend⟩ := hw
  rw [removeClick_ok s N aN hsel hget hrl hnl hok]
  have hends : ∀ r ∈ (incidentEdges s.graph N).map mkRemoved,
      hasNode ⟨List.filter (fun n => n.key != N) s.graph.nodes ++ [⟨N, aN⟩],
        List.filter (fun e => !incidentTo N e) s.graph.edges ++
          bridgeEdgeList s.graph.nextKey (synthBridges s.graph N),
        s.graph.nextKey + (synthBridges s.graph N).length⟩ r.source = true ∧
      hasNode ⟨List.filter (fun n => n.key != N) s.graph.nodes ++ [⟨N, aN⟩],
        List.filter (fun e => !incidentTo N e) s.graph.edges ++
          bridgeEdgeList s.graph.nextKey (synthBridges s.graph N),
        s.graph.nextKey + (synthBridges s.graph N).length⟩ r.target = true := by
    intro r hr
    obtain ⟨e, he, rfl⟩ := List.mem_map.mp hr
    have hmem : e ∈ s.graph.edges := (List.mem_filter.mp he).1
    have hend := hwend e hmem
    exact ⟨hasNode_addback s.graph.nodes s.graph.edges _ s.graph.nextKey _
        N e.source aN hend.1,
      hasNode_addback s.graph.nodes s.graph.edges _ s.graph.nextKey _
        N e.target aN hend.2⟩
  have hre := readdEdges_ok ((incidentEdges s.graph N).map mkRemoved)
    ⟨⟨List.filter (fun n => n.key != N) s.graph.nodes ++ [⟨N, aN⟩],
      List.filter (fun e => !incidentTo N e) s.graph.edges ++
        bridgeEdgeList s.graph.nextKey (synthBridges s.graph N),
      s.graph.nextKey + (synthBridges s.graph N).length⟩,
     ⟨s.ctx.selectedNode, some N, some aN,
      some ((incidentEdges s.graph N).map mkRemoved),
      some (keyRange s.graph.nextKey (synthBridges s.graph N).length)⟩⟩
    hends
  have hl1 : ∀ e ∈ List.filter (fun e => !incidentTo N e) s.graph.edges,
      e.key < s.graph.nextKey :=
    fun e he => hwk e (List.mem_of_mem_filter he)
  have hl3 : ∀ e ∈ readdList (s.graph.nextKey + (synthBridges s.graph N).length)
      ((incidentEdges s.graph N).map mkRemoved),
      s.graph.nextKey + (synthBridges s.graph N).length ≤ e.key :=
    fun e he => readdList_key_lb _ _ e he
  have hdrop := dropEdges_ok (synthBridges s.graph N) s.graph.nextKey
    (List.filter (fun n => n.key != N) s.graph.nodes ++ [⟨N, aN⟩])
    (List.filter (fun e => !incidentTo N e) s.graph.edges)
    (readdList (s.graph.nextKey + (synthBridges s.graph N).length)
      ((incidentEdges s.graph N).map mkRemoved))
    (s.graph.nextKey + (synthBridges s.graph N).length +
      ((incidentEdges s.graph N).map mkRemoved).length)
    hl1 hl3
  have haddC : addClick
      ⟨⟨List.filter (fun n => n.key != N) s.graph.nodes,
        List.filter (fun e => !incidentTo N e) s.graph.edges ++
          bridgeEdgeList s.graph.nextKey (synthBridges s.graph N),
        s.graph.nextKey + (synthBridges s.graph N).length⟩,
       ⟨s.ctx.selectedNode, some N, some aN,
        some ((incidentEdges s.graph N).map mkRemoved),
        some (keyRange s.graph.nextKey (synthBridges s.graph N).length)⟩⟩ =
      (⟨⟨List.filter (fun n => n.key != N) s.graph.nodes ++ [⟨N, aN⟩],
         List.filter (fun e => !incidentTo N e) s.graph.edges ++
           readdList (s.graph.nextKey + (synthBridges s.graph N).length)
             ((incidentEdges s.graph N).map mkRemoved),
         s.graph.nextKey + (synthBridges s.graph N).length +
           ((incidentEdges s.graph N).map mkRemoved).length⟩,
        ⟨s.ctx.selectedNode, none, none, none, none⟩⟩, none) := by
    unfold addClick
    simp only [addNode, Option.getD_some, hasNode_filter_self,
      Bool.false_eq_true, if_false]
    rw [hre]
    simp only []
    rw [hdrop]
  rw [haddC]
  simp only [graphEquiv]
  refine ⟨trivial, trivial, ⟨?_, ?_⟩, trivial⟩
  · exact Multiset.coe_eq_coe.mpr
      (filter_key_perm s.graph.nodes N ⟨N, aN⟩ hwnd
        (getNodeAttributes_rec s.graph N aN hget))
  · rw [List.map_append, readdList_triples, ← List.map_append]
    have hperm : List.Perm
        (List.filter (fun e => !incidentTo N e) s.graph.edges ++
          incidentEdges s.graph N) s.graph.edges :=
      List.perm_append_comm.trans (List.filter_append_perm (incidentTo N) s.graph.edges)
    exact Multiset.coe_eq_coe.mpr (hperm.map edgeTriple)

/-- Example state for the C1 witness: node `M` with one structural pair
under label `L` (one edge out of `M`, one into `M`) and one unrelated
non-structural edge. -/
def c1W : AppState :=
  ⟨⟨[⟨"M", ⟨"n", "blue", false, false, false⟩⟩,
     ⟨"A", ⟨"n", "blue", false, false, false⟩⟩,
     ⟨"B", ⟨"n", "blue", false, false, false⟩⟩],
    [⟨0, "M", "A", ⟨"L", false, "c"⟩⟩,
     ⟨1, "B", "M", ⟨"L", false, "c"⟩⟩,
     ⟨2, "A", "B", ⟨"x", true, "c"⟩⟩],
    3⟩,
   ⟨some "M", none, none, some [], some []⟩⟩

theorem c1_remove_addback_roundtrip_witness :
    (wfG c1W.graph ∧ c1W.ctx.selectedNode = some "M" ∧
      getNodeAttributes c1W.graph "M" = some ⟨"n", "blue", false, false, false⟩ ∧
      c1W.ctx.revmovedEdges = some [] ∧ c1W.ctx.newEdges = some [] ∧
      bridgesOK c1W.graph "M" = true) ∧
    ((removeClick c1W).2 = none ∧
      (addClick (removeClick c1W).1).2 = none ∧
      graphEquiv (addClick (removeClick c1W).1).1.graph c1W.graph ∧
      (addClick (removeClick c1W).1).1.ctx.removedNode = none) :=
  ⟨⟨by decide, rfl, by decide, rfl, rfl, by decide⟩,
    c1_remove_addback_roundtrip c1W "M" ⟨"n", "blue", false, false, false⟩
      (by decide) rfl (by decide) rfl rfl (by decide)⟩

/-! ### C2: bridge synthesis groups structural edges by label -/

/-- The effect of one label-matching structural edge on the bridge entry
of its label: create the entry when absent (with this edge's attributes),
then fill in the source or target side. -/
def applyEdgeToLabel (n : String) (e : EdgeRec) (b : Option Bridge) : Option Bridge :=
  let b0 := b.getD ⟨none, none, e.attrs⟩
  let b1 := if e.source == n then { b0 with source := some e.target } else b0
  let b2 := if e.target == n then { b1 with target := some e.source } else b1
  some b2

theorem lookupBridge_map_if_eq (l : List (String × Bridge)) (lab : String)
    (f : Bridge → Bridge) :
    lookupBridge (l.map fun p => if p.1 == lab then (p.1, f p.2) else p) lab =
      (lookupBridge l lab).map f := by
  induction l with
  | nil => simp [lookupBridge]
  | cons p t ih =>
    rcases hp : (p.1 == lab) with _ | _
    · unfold lookupBridge at ih ⊢
      simp only [List.map_cons, hp, Bool.false_eq_true, if_false]
      rw [List.find?_cons_of_neg _ (by simp [hp]),
        List.find?_cons_of_neg _ (by simp [hp])]
      exact ih
    · unfold lookupBridge
      simp only [List.map_cons, hp, if_true]
      rw [List.find?_cons_of_pos _ (by simp [hp]),
        List.find?_cons_of_pos _ (by simp [hp])]
      simp

theorem lookupBridge_map_if_ne (l : List (String × Bridge)) (lab lab2 : String)
    (f : Bridge → Bridge) (h : (lab == lab2) = false) :
    lookupBridge (l.map fun p => if p.1 == lab then (p.1, f p.2) else p) lab2 =
      lookupBridge l lab2 := by
  induction l with
  | nil => simp [lookupBridge]
  | cons p t ih =>
    rcases hp : (p.1 == lab) with _ | _
    · unfold lookupBridge at ih ⊢
      simp only [List.map_cons, hp, Bool.false_eq_true, if_false]
      rcases hp2 : (p.1 == lab2) with _ | _
      · rw [List.find?_cons_of_neg _ (by simp [hp2]),
          List.find?_cons_of_neg _ (by simp [hp2])]
        exact ih
      · rw [List.find?_cons_of_pos _ (by simp [hp2]),
          List.find?_cons_of_pos _ (by simp [hp2])]
    · unfold lookupBridge at ih ⊢
      simp only [List.map_cons, hp, if_true]
      have hp2 : (p.1 == lab2) = false := by
        have h1 : p.1 = lab := by simpa using hp
        rw [h1]
        exact h
      rw [List.find?_cons_of_neg _ (by simp [hp2]),
        List.find?_cons_of_neg _ (by simp [hp2])]
      exact ih

theorem lookupBridge_setSource_eq (l : List (String × Bridge)) (lab v : String) :
    lookupBridge (setBridgeSource l lab v) lab =
      (lookupBridge l lab).map fun b => { b with source := some v } :=
  lookupBridge_map_if_eq l lab fun b => { b with source := some v }

theorem lookupBridge_setSource_ne (l : List (String × Bridge)) (lab lab2 v : String)
    (h : (lab == lab2) = false) :
    lookupBridge (setBridgeSource l lab v) lab2 = lookupBridge l lab2 :=
  lookupBridge_map_if_ne l lab lab2 (fun b => { b with source := some v }) h

theorem lookupBridge_setTarget_eq (l : List (String × Bridge)) (lab v : String) :
    lookupBridge (setBridgeTarget l lab v) lab =
      (lookupBridge l lab).map fun b => { b with target := some v } :=
  lookupBridge_map_if_eq l lab fun b => { b with target := some v }

theorem lookupBridge_setTarget_ne (l : List (String × Bridge)) (lab lab2 v : String)
    (h : (lab == lab2) = false) :
    lookupBridge (setBridgeTarget l lab v) lab2 = lookupBridge l lab2 :=
  lookupBridge_map_if_ne l lab lab2 (fun b => { b with target := some v }) h

theorem lookupBridge_append_single (l : List (String × Bridge))
    (x : String × Bridge) (lab : String) :
    lookupBridge (l ++ [x]) lab =
      (lookupBridge l lab).or (if x.1 == lab then some x.2 else none) := by
  unfold lookupBridge
  rw [List.find?_append]
  rcases h : l.find? (fun p => p.1 == lab) with _ | q <;>
    rcases hx : (x.1 == lab) with _ | _ <;>
    simp [List.find?, h, hx, Option.or]

theorem lookupBridge_eq_none_iff (l : List (String × Bridge)) (lab : String) :
    lookupBridge l lab = none ↔ (l.any fun p => p.1 == lab) = false := by
  unfold lookupBridge
  constructor
  · intro hmap
    rw [List.any_eq_false]
    intro p hp hpred
    rcases hq : l.find? (fun p => p.1 == lab) with _ | q
    · exact absurd hpred (List.find?_eq_none.mp hq p hp)
    · rw [hq] at hmap
      simp at hmap
  · intro hany
    have hfn : l.find? (fun p => p.1 == lab) = none := by
      rw [List.find?_eq_none]
      intro p hp
      rw [List.any_eq_false] at hany
      exact hany p hp
    rw [hfn]
    rfl

theorem synthStep_attr_true (n : String) (acc : List (String × Bridge))
    (e : EdgeRec) (h : (e.attrs.attr == false) = false) :
    synthStep n acc e = acc := by
  unfold synthStep
  simp [h]

theorem lookupBridge_synthStep_ne (n : String) (acc : List (String × Bridge))
    (e : EdgeRec) (lab : String) (hlab : (e.attrs.label == lab) = false) :
    lookupBridge (synthStep n acc e) lab = lookupBridge acc lab := by
  unfold synthStep
  have step1 : ∀ acc1 : List (String × Bridge),
      lookupBridge (if e.attrs.attr == false && e.source == n then
        setBridgeSource acc1 e.attrs.label e.target else acc1) lab =
      lookupBridge acc1 lab := by
    intro acc1
    split
    · exact lookupBridge_setSource_ne acc1 e.attrs.label lab e.target hlab
    · rfl
  have step2 : ∀ acc1 : List (String × Bridge),
      lookupBridge (if e.attrs.attr == false && e.target == n then
        setBridgeTarget acc1 e.attrs.label e.source else acc1) lab =
      lookupBridge acc1 lab := by
    intro acc1
    split
    · exact lookupBridge_setTarget_ne acc1 e.attrs.label lab e.source hlab
    · rfl
  rw [step2, step1]
  split
  · rw [lookupBridge_append_single]
    simp [hlab]
  · rfl

theorem lookupBridge_synthStep_eq (n : String) (acc : List (String × Bridge))
    (e : EdgeRec) (hattr : (e.attrs.attr == false) = true) :
    lookupBridge (synthStep n acc e) e.attrs.label =
      applyEdgeToLabel n e (lookupBridge acc e.attrs.label) := by
  unfold synthStep applyEdgeToLabel
  have hbase : lookupBridge
      (if !(acc.any fun p => p.1 == e.attrs.label) then
        acc ++ [(e.attrs.label, ⟨none, none, e.attrs⟩)] else acc) e.attrs.label =
      some ((lookupBridge acc e.attrs.label).getD ⟨none, none, e.attrs⟩) := by
    rcases hany : (acc.any fun p => p.1 == e.attrs.label) with _ | _
    · have hnone : lookupBridge acc e.attrs.label = none :=
        (lookupBridge_eq_none_iff acc e.attrs.label).mpr hany
      simp only [Bool.not_false, if_true]
      rw [lookupBridge_append_single, hnone]
      simp
    · have hsome : ∃ b, lookupBridge acc e.attrs.label = some b := by
        rcases hlk : lookupBridge acc e.attrs.label with _ | b
        · rw [(lookupBridge_eq_none_iff acc e.attrs.label).mp hlk] at hany
          simp at hany
        · exact ⟨b, rfl⟩
      obtain ⟨b, hb⟩ := hsome
      simp only [Bool.not_true, Bool.false_eq_true, if_false]
      rw [hb]
      simp
  rcases hs : (e.source == n) with _ | _ <;>
    rcases ht : (e.target == n) with _ | _ <;>
    simp only [hattr, hs, ht, Bool.and_false, Bool.and_true, Bool.true_and,
      Bool.false_eq_true, if_false, if_true]
  · exact hbase
  · rw [lookupBridge_setTarget_eq, hbase]
    simp
  · rw [lookupBridge_setSource_eq, hbase]
    simp
  · rw [lookupBridge_setTarget_eq, lookupBridge_setSource_eq, hbase]
    simp

/-- The bridge entry of a fixed label after folding the incident edges is
the fold, over the structural edges with that label, of the per-edge
update. -/
theorem lookupBridge_foldl (n lab : String) :
    ∀ (l : List EdgeRec) (acc : List (String × Bridge)),
      lookupBridge (l.foldl (synthStep n) acc) lab =
        (l.filter fun e => e.attrs.attr == false && e.attrs.label == lab).foldl
          (fun b e => applyEdgeToLabel n e b) (lookupBridge acc lab) := by
  intro l
  induction l with
  | nil => intro acc; simp
  | cons e t ih =>
    intro acc
    simp only [List.foldl_cons, List.filter_cons]
    rcases hattr : (e.attrs.attr == false) with _ | _
    · rw [if_neg (by simp [hattr])]
      rw [ih, synthStep_attr_true n acc e hattr]
    · rcases hlab : (e.attrs.label == lab) with _ | _
      · rw [if_neg (by simp [hlab])]
        rw [ih, lookupBridge_synthStep_ne n acc e lab hlab]
      · rw [if_pos (by simp [hattr, hlab])]
        simp only [List.foldl_cons]
        rw [ih]
        have hl : e.attrs.label = lab := by simpa using hlab
        rw [← hl, lookupBridge_synthStep_eq n acc e hattr]

theorem labels_setBridgeSource (l : List (String × Bridge)) (lab v : String) :
    (setBridgeSource l lab v).map (·.1) = l.map (·.1) := by
  unfold setBridgeSource
  rw [List.map_map]
  refine List.map_congr_left fun p _ => ?_
  simp only [Function.comp_apply]
  split <;> rfl

theorem labels_setBridgeTarget (l : List (String × Bridge)) (lab v : String) :
    (setBridgeTarget l lab v).map (·.1) = l.map (·.1) := by
  unfold setBridgeTarget
  rw [List.map_map]
  refine List.map_congr_left fun p _ => ?_
  simp only [Function.comp_apply]
  split <;> rfl

theorem labels_synthStep_nodup (n : String) (acc : List (String × Bridge))
    (e : EdgeRec) (h : (acc.map (·.1)).Nodup) :
    ((synthStep n acc e).map (·.1)).Nodup := by
  unfold synthStep
  have base : ∀ acc1 : List (String × Bridge), (acc1.map (·.1)).Nodup →
      (((if e.attrs.attr == false && e.target == n then
          setBridgeTarget acc1 e.attrs.label e.source else acc1)).map (·.1)).Nodup := by
    intro acc1 h1
    split
    · rw [labels_setBridgeTarget]; exact h1
    · exact h1
  refine base _ ?_
  have base2 : ∀ acc1 : List (String × Bridge), (acc1.map (·.1)).Nodup →
      (((if e.attrs.attr == false && e.source == n then
          setBridgeSource acc1 e.attrs.label e.target else acc1)).map (·.1)).Nodup := by
    intro acc1 h1
    split
    · rw [labels_setBridgeSource]; exact h1
    · exact h1
  refine base2 _ ?_
  split
  · rename_i hc
    rw [List.map_append, List.map_singleton]
    rw [List.nodup_append]
    refine ⟨h, List.nodup_singleton _, ?_⟩
    intro x hx
    simp only [List.mem_singleton]
    intro hxe
    rw [Bool.and_eq_true] at hc
    have hna := hc.2
    simp only [Bool.not_eq_true'] at hna
    rw [List.any_eq_false] at hna
    obtain ⟨p, hp, rfl⟩ := List.mem_map.mp hx
    exact absurd (by simp [hxe]) (hna p hp)
  · exact h

theorem synthBridges_labels_nodup (g : G) (n : String) :
    ((synthBridges g n).map (·.1)).Nodup := by
  unfold synthBridges
  have gen : ∀ (l : List EdgeRec) (acc : List (String × Bridge)),
      (acc.map (·.1)).Nodup → ((l.foldl (synthStep n) acc).map (·.1)).Nodup := by
    intro l
    induction l with
    | nil => intro acc h; exact h
    | cons e t ih =>
      intro acc h
      exact ih _ (labels_synthStep_nodup n acc e h)
  exact gen _ [] (by simp)

theorem lookupBridge_countP (lab : String) :
    ∀ (l : List (String × Bridge)) (b : Bridge),
      (l.map (·.1)).Nodup → lookupBridge l lab = some b →
      l.countP (fun p => p.1 == lab) = 1 := by
  intro l
  induction l with
  | nil => intro b _ h; simp [lookupBridge] at h
  | cons p t ih =>
    intro b hnd hlk
    simp only [List.map_cons, List.nodup_cons] at hnd
    rcases hp : (p.1 == lab) with _ | _
    · unfold lookupBridge at hlk
      rw [List.find?_cons_of_neg _ (by simp [hp])] at hlk
      rw [List.countP_cons_of_neg _ _ (by simp [hp])]
      exact ih b hnd.2 hlk
    · have hp1 : p.1 = lab := by simpa using hp
      rw [List.countP_cons_of_pos _ _ (by simp [hp])]
      have htail : t.countP (fun q => q.1 == lab) = 0 := by
        rw [List.countP_eq_zero]
        intro q hq
        simp only [beq_iff_eq]
        intro hq1
        exact hnd.1 (by
          rw [hp1, ← hq1]
          exact List.mem_map_of_mem (·.1) hq)
      rw [htail]

/-- When some synthesized bridge has an undefined endpoint, the
bridge-adding loop raises an error. -/
theorem addBridges_err :
    ∀ (bl : List (String × Bridge)) (s : AppState),
      (∃ p ∈ bl, p.2.source = none ∨ p.2.target = none) →
      (addBridges s bl).2 ≠ none := by
  intro bl
  induction bl with
  | nil => intro s h; simp at h
  | cons p rest ih =>
    intro s h
    rcases p with ⟨lab, b⟩
    rcases hsrc : b.source with _ | a
    · simp [addBridges, addEdge, hsrc]
    rcases htgt : b.target with _ | c
    · simp [addBridges, addEdge, hsrc, htgt]
    have hrest : ∃ q ∈ rest, q.2.source = none ∨ q.2.target = none := by
      rcases h with ⟨q, hq, hbad⟩
      rcases List.mem_cons.mp hq with rfl | hq2
      · rcases hbad with h1 | h1 <;> simp_all
      · exact ⟨q, hq2, hbad⟩
    unfold addBridges
    rw [hsrc, htgt]
    rcases hae : addEdge s.graph (some a) (some c) b.attributes with _ | kg
    · simp
    · rcases kg with ⟨k, g2⟩
      rcases hne : s.ctx.newEdges with _ | nl
      · simp
      · exact ih _ hrest

/-- When some synthesized bridge has an undefined endpoint, the remove
click raises an error. -/
theorem removeClick_err_of_bad (s : AppState) (N : String) (aN : NodeAttrs)
    (rl : List RemovedEdge)
    (hsel : s.ctx.selectedNode = some N)
    (hget : getNodeAttributes s.graph N = some aN)
    (hrl : s.ctx.revmovedEdges = some rl)
    (hbad : ∃ p ∈ synthBridges s.graph N, p.2.source = none ∨ p.2.target = none) :
    (removeClick s).2 ≠ none := by
  unfold removeClick
  rw [hsel]
  simp only [hget, hrl]
  split
  · simp
  · rename_i s2 heq
    exact absurd (congrArg Prod.snd heq) (addBridges_err _ _ hbad)

/-- Example state for the C2 counterexample: node `N` has exactly two
structural edges under label `L`, one to `A` and one to `B`, but both
leave `N`. -/
def c2Cex : AppState :=
  ⟨⟨[⟨"N", ⟨"n", "blue", false, false, false⟩⟩,
     ⟨"A", ⟨"n", "blue", false, false, false⟩⟩,
     ⟨"B", ⟨"n", "blue", false, false, false⟩⟩],
    [⟨0, "N", "A", ⟨"L", false, "c"⟩⟩,
     ⟨1, "N", "B", ⟨"L", false, "c"⟩⟩],
    2⟩,
   ⟨some "N", none, none, some [], some []⟩⟩

/-- C2 counterexample.  In `c2Cex`, node `N` has exactly two structural
(`attr == false`) incident edges under label `L`, one to `A` and one to
`B`, yet removing `N` creates no edge `A`–`B`: both edges have `N` as
source, so the bridge's target is never filled in (last-writer-wins on
the source side) and the remove click throws, leaving the graph
unchanged. -/
theorem c2_bridge_grouping_counterexample :
    ((incidentEdges c2Cex.graph "N").filter
        (fun e => e.attrs.attr == false && e.attrs.label == "L")).length = 2 ∧
    (removeClick c2Cex).2 = some JsError.addEdgeFailed ∧
    (removeClick c2Cex).1.graph = c2Cex.graph ∧
    lookupBridge (synthBridges c2Cex.graph "N") "L" =
      some ⟨some "B", none, ⟨"L", false, "c"⟩⟩ := by
  decide

/-- C2 (amended).  Grouping by label during bridge synthesis: if the
structural (`attr == false`) incident edges of `N` carrying label `L` are
exactly one edge from `N` to `A` and one edge from `B` into `N` (with
`A, B ≠ N`), then the synthesized bridge object holds exactly one entry
for `L`, the bridge from `A` to `B` carrying the attributes of the first
of the two edges.  If instead exactly one structural edge `N → A` carries
label `L`, the entry for `L` is left with an undefined target, and the
remove click fails with an error instead of creating zero bridge edges
for `L`. -/
theorem c2_bridge_grouping (g : G) (N A B L : String) (k1 k2 : Nat)
    (a1 a2 : EdgeAttrs) :
    ((incidentEdges g N).filter
          (fun e => e.attrs.attr == false && e.attrs.label == L) =
        [⟨k1, N, A, a1⟩, ⟨k2, B, N, a2⟩] →
      A ≠ N → B ≠ N →
      lookupBridge (synthBridges g N) L = some ⟨some A, some B, a1⟩ ∧
      (synthBridges g N).countP (fun p => p.1 == L) = 1) ∧
    ((incidentEdges g N).filter
          (fun e => e.attrs.attr == false && e.attrs.label == L) =
        [⟨k1, N, A, a1⟩] →
      A ≠ N →
      lookupBridge (synthBridges g N) L = some ⟨some A, none, a1⟩ ∧
      ∀ (s : AppState) (aN : NodeAttrs) (rl : List RemovedEdge),
        s.graph = g → s.ctx.selectedNode = some N →
        getNodeAttributes g N = some aN → s.ctx.revmovedEdges = some rl →
        (removeClick s).2 ≠ none) := by
  constructor
  · intro hfil hA hB
    have hA2 : (A == N) = false := by simpa using hA
    have hB2 : (B == N) = false := by simpa using hB
    have h0 := lookupBridge_foldl N L (incidentEdges g N) []
    rw [hfil] at h0
    have hlkup : lookupBridge (synthBridges g N) L = some ⟨some A, some B, a1⟩ := by
      unfold synthBridges
      rw [h0]
      simp [applyEdgeToLabel, lookupBridge, hA, hB]
    exact ⟨hlkup, lookupBridge_countP L (synthBridges g N) ⟨some A, some B, a1⟩
      (synthBridges_labels_nodup g N) hlkup⟩
  · intro hfil hA
    have hA2 : (A == N) = false := by simpa using hA
    have h0 := lookupBridge_foldl N L (incidentEdges g N) []
    rw [hfil] at h0
    have hlkup : lookupBridge (synthBridges g N) L = some ⟨some A, none, a1⟩ := by
      unfold synthBridges
      rw [h0]
      simp [applyEdgeToLabel, lookupBridge, hA]
    refine ⟨hlkup, ?_⟩
    intro s aN rl hg hsel hget hrl
    subst hg
    have hbad : ∃ p ∈ synthBridges s.graph N,
        p.2.source = none ∨ p.2.target = none := by
      unfold lookupBridge at hlkup
      rcases hq : (synthBridges s.graph N).find? (fun p => p.1 == L) with _ | q
      · rw [hq] at hlkup; simp at hlkup
      · rw [hq] at hlkup
        have hq2 : q.2 = ⟨some A, none, a1⟩ := by simpa using hlkup
        exact ⟨q, List.mem_of_find?_eq_some hq, Or.inr (by rw [hq2])⟩
    exact removeClick_err_of_bad s N aN rl hsel hget hrl hbad

/-- Example state for the C2 witness: `M` has a structural pair under
label `L` (one edge out, one in) and an unrelated single structural edge
under label `K` in a second graph. -/
def c2W : AppState :=
  ⟨⟨[⟨"M", ⟨"n", "blue", false, false, false⟩⟩,
     ⟨"A", ⟨"n", "blue", false, false, false⟩⟩,
     ⟨"B", ⟨"n", "blue", false, false, false⟩⟩],
    [⟨0, "M", "A", ⟨"L", false, "c"⟩⟩,
     ⟨1, "B", "M", ⟨"L", false, "c"⟩⟩],
    2⟩,
   ⟨some "M", none, none, some [], some []⟩⟩

/-- A second example graph for the C2 witness: `M` has a single
structural edge `M → A` under label `K`. -/
def c2W2 : AppState :=
  ⟨⟨[⟨"M", ⟨"n", "blue", false, false, false⟩⟩,
     ⟨"A", ⟨"n", "blue", false, false, false⟩⟩],
    [⟨0, "M", "A", ⟨"K", false, "c"⟩⟩],
    1⟩,
   ⟨some "M", none, none, some [], some []⟩⟩

theorem c2_bridge_grouping_witness :
    (lookupBridge (synthBridges c2W.graph "M") "L" =
        some ⟨some "A", some "B", ⟨"L", false, "c"⟩⟩ ∧
      (synthBridges c2W.graph "M").countP (fun p => p.1 == "L") = 1) ∧
    (lookupBridge (synthBridges c2W2.graph "M") "K" =
        some ⟨some "A", none, ⟨"K", false, "c"⟩⟩ ∧
      (removeClick c2W2).2 ≠ none) :=
  ⟨(c2_bridge_grouping c2W.graph "M" "A" "B" "L" 0 1
      ⟨"L", false, "c"⟩ ⟨"L", false, "c"⟩).1
      (by decide) (by decide) (by decide),
    ⟨((c2_bridge_grouping c2W2.graph "M" "A" "B" "K" 0 1
        ⟨"K", false, "c"⟩ ⟨"K", false, "c"⟩).2
        (by decide) (by decide)).1,
      ((c2_bridge_grouping c2W2.graph "M" "A" "B" "K" 0 1
        ⟨"K", false, "c"⟩ ⟨"K", false, "c"⟩).2
        (by decide) (by decide)).2 c2W2 ⟨"n", "blue", false, false, false⟩ []
        rfl rfl (by decide) rfl⟩⟩

/-! ### C8: edit-buffer invariant -/

/-- Example state for C8: nodes `M` and `P`, each with one incident
non-structural edge, starting from the initial context state. -/
def c8Start : AppState :=
  ⟨⟨[⟨"M", ⟨"n", "blue", false, false, false⟩⟩,
     ⟨"A", ⟨"n", "blue", false, false, false⟩⟩,
     ⟨"P", ⟨"n", "blue", false, false, false⟩⟩],
    [⟨0, "M", "A", ⟨"x", true, "c"⟩⟩,
     ⟨1, "P", "A", ⟨"y", true, "c"⟩⟩],
    2⟩,
   initialContextState⟩

/-- The state after the benign lifecycle prefix: right-click `M`, remove
it, add it back, then right-click `P`. -/
def c8BeforeSecondRemove : AppState :=
  rightClickNode
    (addClick (removeClick (rightClickNode c8Start "M")).1).1 "P"

/-- C8.  The first remove/add-back cycle succeeds and keeps the buffer
invariant, but the add-back clears the edge lists to `undefined` instead
of empty arrays, so the second remove click (on `P`) throws while pushing
onto `revmovedEdges` and leaves the buffer with `removedNode` and the
attribute snapshot set but both lists unset: neither empty nor fully
populated.  The claimed invariant is violated by the code. -/
theorem c8_buffer_invariant_violated :
    bufferInv (removeClick (rightClickNode c8Start "M")).1.ctx = true ∧
    (removeClick (rightClickNode c8Start "M")).2 = none ∧
    bufferInv (addClick (removeClick (rightClickNode c8Start "M")).1).1.ctx = true ∧
    (addClick (removeClick (rightClickNode c8Start "M")).1).2 = none ∧
    (removeClick c8BeforeSecondRemove).2 = some JsError.pushOnUndefined ∧
    bufferInv (removeClick c8BeforeSecondRemove).1.ctx = false := by
  decide

end LaughingOwl
